import Mathlib

/- Shallow embedding of the Remote Data Cache and Retrieval layer of the
limitless-mcp server: cache key derivation, query parameter preparation,
TTL policy, error status extraction, and the retrying request dispatcher,
translated from src/api/client.ts, src/cache.ts, src/config.ts and
src/utils/errors.ts. Query parameter maps are modelled as association
lists of (name, value) entries in insertion order; JavaScript record
semantics guarantee distinct names, which appears as a Nodup hypothesis. -/

/-- Scalar JavaScript values appearing as query parameter values or cached
response bodies: undefined, null, booleans, integer numbers and strings. -/
inductive JSVal where
  | undefined
  | null
  | bool (b : Bool)
  | num (n : Int)
  | str (s : String)
  deriving DecidableEq, Repr

/-- JavaScript truthiness of a scalar value. -/
def truthy : JSVal → Bool
  | .undefined => false
  | .null => false
  | .bool b => b
  | .num n => n != 0
  | .str s => s != ""

/-- The JavaScript conversion String(v) on scalar values. -/
def jsString : JSVal → String
  | .undefined => "undefined"
  | .null => "null"
  | .bool true => "true"
  | .bool false => "false"
  | .num n => toString n
  | .str s => s

/-- The filter both buildCacheKey and prepareQueryParams apply to one value:
entries whose value is undefined or null are dropped, all other values are
stringified (the test value !== undefined && value !== null in the source). -/
def keepParam : JSVal → Option String
  | .undefined => none
  | .null => none
  | v => some (jsString v)

/-- A value is nullish when it is undefined or null. -/
def isNullish : JSVal → Bool
  | .undefined => true
  | .null => true
  | _ => false

/-- Uppercase hexadecimal digit for n < 16. -/
def hexDigit (n : Nat) : Char :=
  if n < 10 then Char.ofNat (48 + n) else Char.ofNat (55 + n)

/-- Percent-encoding of one byte. -/
def percentByte (b : Nat) : List Char :=
  ['%', hexDigit (b / 16), hexDigit (b % 16)]

/-- UTF-8 bytes of one character. -/
def utf8Bytes (c : Char) : List Nat :=
  let n := c.toNat
  if n < 128 then [n]
  else if n < 2048 then [192 + n / 64, 128 + n % 64]
  else if n < 65536 then [224 + n / 4096, 128 + n / 64 % 64, 128 + n % 64]
  else [240 + n / 262144, 128 + n / 4096 % 64, 128 + n / 64 % 64, 128 + n % 64]

/-- Characters the urlencoded serializer of URLSearchParams leaves as-is. -/
def isFormSafe (c : Char) : Bool :=
  (97 ≤ c.toNat && c.toNat ≤ 122) || (65 ≤ c.toNat && c.toNat ≤ 90) ||
  (48 ≤ c.toNat && c.toNat ≤ 57) || c == '*' || c == '-' || c == '.' || c == '_'

/-- One character of the urlencoded serialization: space becomes a plus,
safe characters stay, everything else is percent-encoded bytewise. -/
def encodeFormChar (c : Char) : List Char :=
  if c == ' ' then ['+']
  else if isFormSafe c then [c]
  else (utf8Bytes c).flatMap percentByte

/-- The urlencoded serialization of one string. -/
def encodeForm (s : String) : String :=
  String.mk (s.data.flatMap encodeFormChar)

/-- URLSearchParams.toString: the kept pairs rendered k=v and joined by
ampersands. -/
def serializeForm (ps : List (String × String)) : String :=
  String.intercalate "&" (ps.map fun kv => encodeForm kv.1 ++ "=" ++ encodeForm kv.2)

/-- The (name, stringified value) pairs appended to the URLSearchParams
accumulator inside buildCacheKey: parameter names sorted, each name looked
up in the record, entries with undefined or null values dropped. -/
def buildCacheKeyPairs (qs : List (String × JSVal)) : List (String × String) :=
  ((qs.map Prod.fst).insertionSort (· ≤ ·)).filterMap fun k =>
    match List.lookup k qs with
    | some v => (keepParam v).map fun s => (k, s)
    | none => none

/-- buildCacheKey from src/api/client.ts: sort the parameter names, drop
nullish values, stringify the rest, and produce path ++ "?" ++ params. -/
def buildCacheKey (path : String) (qs : List (String × JSVal)) : String :=
  path ++ "?" ++ serializeForm (buildCacheKeyPairs qs)

/-- prepareQueryParams from src/api/client.ts: the same filtering and
stringification as buildCacheKey, but in insertion order, producing the
pairs sent on the outbound request URL. -/
def prepareQueryParams (qs : List (String × JSVal)) : List (String × String) :=
  qs.filterMap fun kv => (keepParam kv.2).map fun s => (kv.1, s)

/-- JavaScript record field access qs[k], giving undefined when absent. -/
def getParam (qs : List (String × JSVal)) (k : String) : JSVal :=
  (List.lookup k qs).getD .undefined

/-- Does the character list s start with pat. -/
def startsWithChars : List Char → List Char → Bool
  | _, [] => true
  | [], _ :: _ => false
  | a :: s, b :: p => a == b && startsWithChars s p

/-- Does the character list s contain pat as a contiguous run. -/
def hasSubstrChars : List Char → List Char → Bool
  | [], pat => pat.isEmpty
  | s@(_ :: t), pat => startsWithChars s pat || hasSubstrChars t pat

/-- The JavaScript test s.includes(pat). -/
def strIncludes (s pat : String) : Bool :=
  hasSubstrChars s.data pat.data

/-- Configuration values consumed by the layer, from src/config.ts:
retry budget, base cache TTL in seconds, and the TTL multipliers. -/
structure ServerConfig where
  apiMaxRetries : Nat
  cacheTTL : ℚ
  multMetadata : ℚ
  multListings : ℚ
  multSearch : ℚ
  deriving Repr

/-- The configuration defaults of src/config.ts: 3 retries, base TTL 300
seconds, multipliers 3, 2 and 1.5. -/
def defaultConfig : ServerConfig :=
  ⟨3, 300, 3, 2, 3 / 2⟩

/-- The first guard of calculateTTL: single lifelog metadata, the path
contains /lifelogs/ and includeMarkdown is not truthy. -/
def isMetadataRequest (path : String) (qs : List (String × JSVal)) : Bool :=
  strIncludes path "/lifelogs/" && !(truthy (getParam qs "includeMarkdown"))

/-- The second guard of calculateTTL: lifelog listings, the path equals
/lifelogs and an explicit truthy limit is present. -/
def isListingRequest (path : String) (qs : List (String × JSVal)) : Bool :=
  path == "/lifelogs" && truthy (getParam qs "limit")

/-- The third guard of calculateTTL: a truthy query term is present. -/
def isSearchRequest (qs : List (String × JSVal)) : Bool :=
  truthy (getParam qs "query")

/-- calculateTTL from src/cache.ts: starting from the base TTL, apply the
multiplier of the first matching category in the fixed guard order
metadata, listings, search, default. -/
def calculateTTL (cfg : ServerConfig) (path : String) (qs : List (String × JSVal)) : ℚ :=
  if isMetadataRequest path qs then cfg.cacheTTL * cfg.multMetadata
  else if isListingRequest path qs then cfg.cacheTTL * cfg.multListings
  else if isSearchRequest qs then cfg.cacheTTL * cfg.multSearch
  else cfg.cacheTTL

/-- JavaScript values as seen by the error helpers: scalars plus objects
with string-keyed fields. -/
inductive ErrVal where
  | undefined
  | null
  | bool (b : Bool)
  | num (n : Int)
  | str (s : String)
  | obj (fields : List (String × ErrVal))

/-- JavaScript truthiness on error values; objects are always truthy. -/
def ErrVal.truthyV : ErrVal → Bool
  | .undefined => false
  | .null => false
  | .bool b => b
  | .num n => n != 0
  | .str s => s != ""
  | .obj _ => true

/-- The JavaScript test k in e on the fields of an object. -/
def hasField (fs : List (String × ErrVal)) (k : String) : Bool :=
  (List.lookup k fs).isSome

/-- Field access e[k] on an object, undefined when the field is absent. -/
def getField (fs : List (String × ErrVal)) (k : String) : ErrVal :=
  (List.lookup k fs).getD .undefined

/-- The JavaScript test typeof v is object and v is not null. -/
def isObjectValue : ErrVal → Bool
  | .obj _ => true
  | _ => false

/-- The JavaScript test typeof v is string. -/
def isStringValue : ErrVal → Bool
  | .str _ => true
  | _ => false

/-- isApiError from src/utils/errors.ts: a non-null object that has a
statusCode field, or a non-null object in its response field, or a string
in its message field. -/
def isApiError (e : ErrVal) : Bool :=
  match e with
  | .obj fs =>
      hasField fs "statusCode" ||
      (hasField fs "response" && isObjectValue (getField fs "response")) ||
      (hasField fs "message" && isStringValue (getField fs "message"))
  | _ => false

/-- The JavaScript optional chain v?.k: undefined unless v is an object
carrying the field. -/
def optField : ErrVal → String → ErrVal
  | .obj fs, k => getField fs k
  | _, _ => .undefined

/-- getErrorStatusCode from src/utils/errors.ts: undefined unless the value
passes isApiError; then the direct statusCode field if truthy, else the
statusCode reached through the response field if truthy, else undefined. -/
def getErrorStatusCode (e : ErrVal) : ErrVal :=
  if isApiError e then
    match e with
    | .obj fs =>
        if ErrVal.truthyV (getField fs "statusCode") then getField fs "statusCode"
        else if ErrVal.truthyV (optField (getField fs "response") "statusCode") then
          optField (getField fs "response") "statusCode"
        else .undefined
    | _ => .undefined
  else .undefined

/-- Modelled from the spec: the extraction contract of the error
classifier, returning the direct statusCode field when present and truthy,
otherwise the statusCode nested inside the response wrapper when present
and truthy, otherwise undefined; values without fields yield undefined. -/
def statusCodeSpec (e : ErrVal) : ErrVal :=
  match e with
  | .obj fs =>
      if ErrVal.truthyV (getField fs "statusCode") then getField fs "statusCode"
      else if ErrVal.truthyV (optField (getField fs "response") "statusCode") then
        optField (getField fs "response") "statusCode"
      else .undefined
  | _ => .undefined

/-- Outcome of one transport attempt inside the retry loop: the request
promise either resolves with a status code and parsed body, or rejects
with an error value that may carry a statusCode field and a response
wrapper with its own status. -/
inductive NetOutcome where
  | ok (status : Nat) (body : JSVal)
  | exn (statusCode : Option Nat) (respStatus : Option (Option Nat))
  deriving DecidableEq, Repr

/-- Observable side effects of a dispatch, in order: backoff sleeps in
milliseconds and outbound network calls. -/
inductive Ev where
  | sleep (ms : Nat)
  | net
  deriving DecidableEq, Repr

/-- Is the event a network call. -/
def isNet : Ev → Bool
  | .net => true
  | _ => false

/-- Number of network calls in an event trace. -/
def countNet (evs : List Ev) : Nat :=
  (evs.filter isNet).length

/-- The sleep performed at the top of the retry loop body: none before the
initial attempt, 2 ^ (r - 1) * 1000 milliseconds before retry r. -/
def sleepFor (r : Nat) : List Ev :=
  if r > 0 then [Ev.sleep (2 ^ (r - 1) * 1000)] else []

/-- Result of the retry loop: a resolved response, or the error that the
loop re-raised. -/
inductive LoopOut where
  | success (status : Nat) (body : JSVal)
  | thrown (statusCode : Option Nat) (respStatus : Option (Option Nat))
  deriving DecidableEq, Repr

/-- The no-retry guard of the loop, the source test err.statusCode &&
err.statusCode < 500: a truthy statusCode below 500 is a client error and
is re-raised without further attempts. -/
def nonRetryable (sc : Option Nat) : Bool :=
  match sc with
  | some c => c != 0 && c < 500
  | none => false

/-- The retry loop of callLimitlessApi starting at retry count r with
remaining further retries allowed: sleep when r is positive, issue attempt
r, break on any resolved response, re-raise a non-retryable error
immediately, otherwise retry until the budget is exhausted and re-raise
the last error. -/
def retryLoopAux (oracle : Nat → NetOutcome) : Nat → Nat → List Ev × LoopOut
  | r, remaining =>
    match oracle r with
    | .ok s b => (sleepFor r ++ [Ev.net], .success s b)
    | .exn sc rs =>
      if nonRetryable sc then (sleepFor r ++ [Ev.net], .thrown sc rs)
      else
        match remaining with
        | 0 => (sleepFor r ++ [Ev.net], .thrown sc rs)
        | remaining' + 1 =>
          let rest := retryLoopAux oracle (r + 1) remaining'
          (sleepFor r ++ [Ev.net] ++ rest.1, rest.2)

/-- The retry loop as entered by callLimitlessApi: retry count starts at
zero and apiMaxRetries further retries are allowed. -/
def retryLoop (oracle : Nat → NetOutcome) (maxRetries : Nat) : List Ev × LoopOut :=
  retryLoopAux oracle 0 maxRetries

/-- Modelled from the spec: a cache entry owned by the store, holding the
value and the absolute expiry time; the store itself (NodeCache) is an
external collaborator of the source. -/
structure CacheEntry where
  value : JSVal
  expiresAt : ℚ
  deriving DecidableEq, Repr

/-- Modelled from the spec: the store state, a mapping from key to entry
with a configured maximum distinct key count. -/
structure CacheState where
  entries : List (String × CacheEntry)
  maxKeys : Nat
  deriving DecidableEq, Repr

/-- Modelled from the spec: get returns the stored value unless the key is
absent or the entry has expired; expiry is checked lazily at read time. -/
def cacheLookup (st : CacheState) (now : ℚ) (k : String) : Option JSVal :=
  match List.lookup k st.entries with
  | some e => if e.expiresAt < now then none else some e.value
  | none => none

/-- Modelled from the spec: set stores the value with expiry now + ttl, but
fails with a capacity error when the store is at its configured maximum
distinct key count and the key is new; replacing an existing key never
fails on capacity grounds. -/
def cacheSet (st : CacheState) (now ttl : ℚ) (k : String) (v : JSVal) : Option CacheState :=
  if (List.lookup k st.entries).isNone && st.maxKeys ≤ st.entries.length then none
  else some ⟨(k, ⟨v, now + ttl⟩) :: st.entries.eraseP (fun p => p.1 == k), st.maxKeys⟩

/-- Error codes from the ErrorCode enumeration in src/utils/errors.ts that
the dispatcher can attach to a raised McpError. -/
inductive ErrCode where
  | NOT_FOUND
  | UNAUTHORIZED
  | API_ERROR
  deriving DecidableEq, Repr

/-- What the try block of callLimitlessApi can raise before the outer catch
runs: the re-raised transport error, the generic HTTP error built after the
loop for a resolved non-2xx status, or the capacity error escaping
cache.set. -/
inductive Caught where
  | exnErr (statusCode : Option Nat) (respStatus : Option (Option Nat))
  | httpError (status : Nat)
  | cacheFull
  deriving DecidableEq, Repr

/-- What callLimitlessApi raises to its caller: a classified McpError, or
the caught error re-raised unchanged when no classification applies. -/
inductive Thrown where
  | mcp (code : ErrCode) (msg : String)
  | raw (c : Caught)
  deriving DecidableEq, Repr

/-- The statusCode the outer catch sees on the caught error, after the step
that overwrites err.statusCode with err.response.statusCode whenever a
response field is present; the generic HTTP error and the capacity error
carry no statusCode field. -/
def caughtStatus : Caught → Option Nat
  | .exnErr sc rs =>
    match rs with
    | some rsc => rsc
    | none => sc
  | _ => none

/-- The outer catch of callLimitlessApi: a truthy statusCode of 404 maps to
NOT_FOUND, 401 or 403 to UNAUTHORIZED, 500 and above to API_ERROR; any
other caught error is re-raised unchanged. -/
def mapCatch (c : Caught) (path : String) : Thrown :=
  match caughtStatus c with
  | some sc =>
    if sc == 0 then .raw c
    else if sc == 404 then .mcp .NOT_FOUND ("Resource not found: " ++ path)
    else if sc == 401 || sc == 403 then .mcp .UNAUTHORIZED "Unauthorized access to Limitless API"
    else if 500 ≤ sc then .mcp .API_ERROR ("Limitless API service error: " ++ toString sc)
    else .raw c
  | none => .raw c

/-- A dispatch either returns a parsed body or raises a classified or raw
error. -/
inductive FetchResult where
  | ok (body : JSVal)
  | error (e : Thrown)
  deriving DecidableEq, Repr

/-- The observable outcome of one callLimitlessApi dispatch: the returned
body or raised error, the side effects in order, and the cache afterwards. -/
structure FetchOut where
  result : FetchResult
  events : List Ev
  cache : CacheState
  deriving DecidableEq, Repr

/-- callLimitlessApi from src/api/client.ts, over an attempt oracle giving
the outcome of each transport attempt: derive the cache key, return a
truthy cached value immediately, otherwise run the retry loop; a resolved
status outside 200..299 raises the generic HTTP error through the outer
catch, a 2xx body is stored through cache.set (whose capacity error
escapes into the outer catch and is re-raised), and loop errors are
classified by the outer catch. -/
def callLimitlessApi (cfg : ServerConfig) (oracle : Nat → NetOutcome)
    (st : CacheState) (now : ℚ) (path : String) (qs : List (String × JSVal))
    (useCache : Bool) : FetchOut :=
  let cacheKey := buildCacheKey path qs
  let cachedData : JSVal :=
    if useCache then (cacheLookup st now cacheKey).getD .undefined else .undefined
  if truthy cachedData then
    ⟨.ok cachedData, [], st⟩
  else
    let run := retryLoop oracle cfg.apiMaxRetries
    match run.2 with
    | .success s b =>
      if s == 0 || s < 200 || 300 ≤ s then
        ⟨.error (mapCatch (.httpError s) path), run.1, st⟩
      else if useCache then
        match cacheSet st now (calculateTTL cfg path qs) cacheKey b with
        | some st' => ⟨.ok b, run.1, st'⟩
        | none => ⟨.error (mapCatch .cacheFull path), run.1, st⟩
      else ⟨.ok b, run.1, st⟩
    | .thrown sc rs => ⟨.error (mapCatch (.exnErr sc rs) path), run.1, st⟩

/-- Aggregated backoff pattern: attempt 0 is bare, every later attempt i is
preceded by a sleep of 2 ^ (i - 1) * 1000 milliseconds. -/
def attemptEvents (m : Nat) : List Ev :=
  (List.range m).flatMap fun i => sleepFor i ++ [Ev.net]

theorem lookup_cons_self {β : Type} (k : String) (v : β) (l : List (String × β)) :
    List.lookup k ((k, v) :: l) = some v := by
  rw [List.lookup_cons]
  simp

theorem lookup_cons_ne {β : Type} {k k' : String} (v : β) (h : k' ≠ k)
    (l : List (String × β)) :
    List.lookup k' ((k, v) :: l) = List.lookup k' l := by
  rw [List.lookup_cons]
  simp [beq_false_of_ne h]

theorem keyLookup_fst {qs : List (String × JSVal)} {a : String} {b : String × String} :
    b ∈ (match List.lookup a qs with
         | some v => (keepParam v).map fun s => (a, s)
         | none => none) → b.1 = a := by
  intro hb
  rw [Option.mem_def] at hb
  rcases h1 : List.lookup a qs with _ | v <;> rw [h1] at hb <;> dsimp only at hb
  · cases hb
  · rcases h2 : keepParam v with _ | s <;> rw [h2] at hb <;>
      simp only [Option.map_some', Option.map_none'] at hb
    · cases hb
    · cases hb
      rfl

theorem filterMap_keys_eq_prepare (qs : List (String × JSVal))
    (h : (qs.map Prod.fst).Nodup) :
    ((qs.map Prod.fst).filterMap fun k =>
      match List.lookup k qs with
      | some v => (keepParam v).map fun s => (k, s)
      | none => none) = prepareQueryParams qs := by
  induction qs with
  | nil => rfl
  | cons kv rest ih =>
    obtain ⟨k, v⟩ := kv
    simp only [List.map_cons, List.nodup_cons] at h
    obtain ⟨hk, hrest⟩ := h
    have tail : (rest.map Prod.fst).filterMap
        (fun k' => match List.lookup k' ((k, v) :: rest) with
          | some w => (keepParam w).map fun s => (k', s)
          | none => none) =
        (rest.map Prod.fst).filterMap
        (fun k' => match List.lookup k' rest with
          | some w => (keepParam w).map fun s => (k', s)
          | none => none) := by
      apply List.filterMap_congr
      intro x hx
      have hxk : x ≠ k := by
        intro heq
        exact hk (heq ▸ hx)
      rw [lookup_cons_ne v hxk]
    simp only [List.map_cons, List.filterMap_cons, lookup_cons_self, tail, ih hrest]
    cases hkp : keepParam v <;>
      simp [prepareQueryParams, List.filterMap_cons, hkp]

theorem buildCacheKeyPairs_perm_prepare (qs : List (String × JSVal))
    (h : (qs.map Prod.fst).Nodup) :
    (buildCacheKeyPairs qs).Perm (prepareQueryParams qs) := by
  unfold buildCacheKeyPairs
  have hperm := List.perm_insertionSort (α := String) (· ≤ ·) (qs.map Prod.fst)
  exact (hperm.filterMap _).trans (filterMap_keys_eq_prepare qs h ▸ List.Perm.refl _)

theorem buildCacheKeyPairs_sorted (qs : List (String × JSVal))
    (h : (qs.map Prod.fst).Nodup) :
    (buildCacheKeyPairs qs).Pairwise (fun a b => a.1 < b.1) := by
  unfold buildCacheKeyPairs
  apply List.Pairwise.filterMap
  · intro a a' hlt b hb b' hb'
    rw [keyLookup_fst hb, keyLookup_fst hb']
    exact hlt
  · have hsorted : ((qs.map Prod.fst).insertionSort (· ≤ ·)).Sorted (· ≤ ·) :=
      List.sorted_insertionSort (· ≤ ·) (qs.map Prod.fst)
    have hnodup : ((qs.map Prod.fst).insertionSort (· ≤ ·)).Nodup :=
      (List.perm_insertionSort (· ≤ ·) (qs.map Prod.fst)).nodup_iff.mpr h
    exact (hsorted.and hnodup).imp fun hab => lt_of_le_of_ne hab.1 hab.2

instance : IsAntisymm (String × String) (fun a b => a.1 < b.1) :=
  ⟨fun _ _ h1 h2 => absurd (lt_trans h1 h2) (lt_irrefl _)⟩

/-- C1: for every path and every two parameter records holding the same
(name, value) entries in any insertion order (record keys are distinct),
buildCacheKey yields the same cache key, because parameter names are
sorted before concatenation. -/
theorem buildCacheKey_deterministic (p : String) (qs₁ qs₂ : List (String × JSVal))
    (h : (qs₁.map Prod.fst).Nodup) (hp : qs₁.Perm qs₂) :
    buildCacheKey p qs₁ = buildCacheKey p qs₂ := by
  have h₂ : (qs₂.map Prod.fst).Nodup := (hp.map Prod.fst).nodup_iff.mp h
  have hperm : (buildCacheKeyPairs qs₁).Perm (buildCacheKeyPairs qs₂) :=
    ((buildCacheKeyPairs_perm_prepare qs₁ h).trans (hp.filterMap _)).trans
      (buildCacheKeyPairs_perm_prepare qs₂ h₂).symm
  have heq : buildCacheKeyPairs qs₁ = buildCacheKeyPairs qs₂ :=
    List.eq_of_perm_of_sorted hperm (buildCacheKeyPairs_sorted qs₁ h)
      (buildCacheKeyPairs_sorted qs₂ h₂)
  unfold buildCacheKey
  rw [heq]

/-- Closed instance of C1 at a concrete path and two concrete insertion
orders of the same record. -/
theorem buildCacheKey_deterministic_witness :
    (([(("a" : String), JSVal.num 1), ("b", JSVal.num 2)]).map Prod.fst).Nodup ∧
    ([(("a" : String), JSVal.num 1), ("b", JSVal.num 2)]).Perm
      [("b", JSVal.num 2), ("a", JSVal.num 1)] ∧
    buildCacheKey "/lifelogs" [("a", JSVal.num 1), ("b", JSVal.num 2)] =
      buildCacheKey "/lifelogs" [("b", JSVal.num 2), ("a", JSVal.num 1)] :=
  ⟨by decide, by decide,
    buildCacheKey_deterministic "/lifelogs" _ _ (by decide) (by decide)⟩

theorem prepare_filter_nullish (qs : List (String × JSVal)) :
    prepareQueryParams (qs.filter fun kv => !isNullish kv.2) = prepareQueryParams qs := by
  induction qs with
  | nil => rfl
  | cons kv rest ih =>
    obtain ⟨k, v⟩ := kv
    cases v <;>
      simp only [prepareQueryParams, List.filter_cons, isNullish, keepParam,
        Bool.not_true, Bool.not_false, if_true, if_false, List.filterMap_cons,
        Option.map_some', Option.map_none'] at ih ⊢ <;>
      simp [ih]

theorem filtered_keys_nodup (qs : List (String × JSVal))
    (h : (qs.map Prod.fst).Nodup) :
    (((qs.filter fun kv => !isNullish kv.2).map Prod.fst)).Nodup :=
  h.sublist (List.Sublist.map Prod.fst (List.filter_sublist qs))

/-- C2: buildCacheKey ignores every parameter whose value is undefined or
null (dropping the nullish entries of a record leaves the key unchanged),
and on the empty parameter record it returns exactly path ++ "?"; being a
total Lean function it has no failure modes. -/
theorem buildCacheKey_drops_nullish (p : String) (qs : List (String × JSVal))
    (h : (qs.map Prod.fst).Nodup) :
    buildCacheKey p qs = buildCacheKey p (qs.filter fun kv => !isNullish kv.2) ∧
    (∀ p' : String, buildCacheKey p' [] = p' ++ "?") := by
  constructor
  · have h' := filtered_keys_nodup qs h
    have hperm : (buildCacheKeyPairs qs).Perm
        (buildCacheKeyPairs (qs.filter fun kv => !isNullish kv.2)) :=
      ((buildCacheKeyPairs_perm_prepare qs h).trans
        (prepare_filter_nullish qs ▸ List.Perm.refl _)).trans
        (buildCacheKeyPairs_perm_prepare _ h').symm
    have heq : buildCacheKeyPairs qs =
        buildCacheKeyPairs (qs.filter fun kv => !isNullish kv.2) :=
      List.eq_of_perm_of_sorted hperm (buildCacheKeyPairs_sorted qs h)
        (buildCacheKeyPairs_sorted _ h')
    unfold buildCacheKey
    rw [heq]
  · intro p'
    show p' ++ "?" ++ serializeForm (buildCacheKeyPairs []) = p' ++ "?"
    have : serializeForm (buildCacheKeyPairs []) = "" := rfl
    rw [this, String.append_empty]

/-- Closed instance of C2: the record with a undefined and b 2 yields the
same key as the record with only b 2, and the empty record yields the bare
path followed by a question mark. -/
theorem buildCacheKey_drops_nullish_witness :
    (([(("a" : String), JSVal.undefined), ("b", JSVal.num 2)]).map Prod.fst).Nodup ∧
    buildCacheKey "/lifelogs" [("a", JSVal.undefined), ("b", JSVal.num 2)] =
      buildCacheKey "/lifelogs" [("b", JSVal.num 2)] ∧
    buildCacheKey "/lifelogs" [] = "/lifelogs" ++ "?" :=
  ⟨by decide,
    by
      have hmain := buildCacheKey_drops_nullish "/lifelogs"
        [("a", JSVal.undefined), ("b", JSVal.num 2)] (by decide)
      have hfilter : ([(("a" : String), JSVal.undefined), ("b", JSVal.num 2)].filter
          fun kv => !isNullish kv.2) = [("b", JSVal.num 2)] := by decide
      exact hfilter ▸ hmain.1,
    (buildCacheKey_drops_nullish "/lifelogs" [] (by decide)).2 "/lifelogs"⟩

/-- C10: for every parameter record (distinct names), the (name, value)
pairs prepared for the outbound request URL by prepareQueryParams are
exactly the pairs concatenated into the cache key by buildCacheKey, as
multisets: both apply the same nullish filtering and the same
stringification and differ only in pair order, so the cache key always
corresponds to the URL that was requested; the same holds for the encoded
name=value fragments. -/
theorem prepare_matches_cacheKeyPairs (qs : List (String × JSVal))
    (h : (qs.map Prod.fst).Nodup) :
    (prepareQueryParams qs).Perm (buildCacheKeyPairs qs) ∧
    ((prepareQueryParams qs).map fun kv => encodeForm kv.1 ++ "=" ++ encodeForm kv.2).Perm
      ((buildCacheKeyPairs qs).map fun kv => encodeForm kv.1 ++ "=" ++ encodeForm kv.2) := by
  have hperm := (buildCacheKeyPairs_perm_prepare qs h).symm
  exact ⟨hperm, hperm.map _⟩

/-- Closed instance of C10 at a concrete two-parameter record given in
reverse alphabetical insertion order. -/
theorem prepare_matches_cacheKeyPairs_witness :
    (([(("b" : String), JSVal.num 2), ("a", JSVal.str "x")]).map Prod.fst).Nodup ∧
    (prepareQueryParams [(("b" : String), JSVal.num 2), ("a", JSVal.str "x")]).Perm
      (buildCacheKeyPairs [(("b" : String), JSVal.num 2), ("a", JSVal.str "x")]) :=
  ⟨by decide,
    (prepare_matches_cacheKeyPairs [("b", JSVal.num 2), ("a", JSVal.str "x")] (by decide)).1⟩

/-- C3: with the configured defaults (base TTL 300 and multipliers 3, 2 and
1.5), calculateTTL evaluates its guards in the fixed order metadata,
listing, search, default and returns the base times the multiplier of the
first matching category only: 900 for a single-item metadata request, 600
for a listing request with an explicit page size, 450 for a search request
with a query term present, and 300 for any other request. -/
theorem calculateTTL_tiering (path : String) (qs : List (String × JSVal)) :
    calculateTTL defaultConfig path qs =
      if isMetadataRequest path qs then 900
      else if isListingRequest path qs then 600
      else if isSearchRequest qs then 450
      else 300 := by
  unfold calculateTTL defaultConfig
  split_ifs <;> norm_num

theorem truthy_getField_hasField {fs : List (String × ErrVal)} {k : String}
    (h : ErrVal.truthyV (getField fs k) = true) : hasField fs k = true := by
  unfold getField at h
  unfold hasField
  cases hl : List.lookup k fs with
  | none => rw [hl] at h; simp [ErrVal.truthyV] at h
  | some v => rfl

theorem truthy_optField_object {v : ErrVal} {k : String}
    (h : ErrVal.truthyV (optField v k) = true) : isObjectValue v = true := by
  cases v <;> simp_all [optField, ErrVal.truthyV, isObjectValue]

theorem object_getField_hasField {fs : List (String × ErrVal)} {k : String}
    (h : isObjectValue (getField fs k) = true) : hasField fs k = true := by
  unfold getField at h
  unfold hasField
  cases hl : List.lookup k fs with
  | none => rw [hl] at h; simp [isObjectValue] at h
  | some v => rfl

/-- C9: getErrorStatusCode is a total function (it never throws) and on
every value it returns exactly the specified extraction: the direct
statusCode field when present and truthy, otherwise the statusCode nested
inside the response wrapper when present and truthy, otherwise undefined,
uniformly for direct and nested carriers. -/
theorem getErrorStatusCode_spec (e : ErrVal) :
    getErrorStatusCode e = statusCodeSpec e := by
  cases e with
  | obj fs =>
    by_cases h1 : ErrVal.truthyV (getField fs "statusCode")
    · simp [getErrorStatusCode, statusCodeSpec, isApiError, h1,
        truthy_getField_hasField h1]
    · by_cases h2 : ErrVal.truthyV (optField (getField fs "response") "statusCode")
      · have hobj := truthy_optField_object h2
        simp [getErrorStatusCode, statusCodeSpec, isApiError, h1, h2, hobj,
          object_getField_hasField hobj]
      · simp [getErrorStatusCode, statusCodeSpec, isApiError, h1, h2]
  | undefined => rfl
  | null => rfl
  | bool b => rfl
  | num n => rfl
  | str s => rfl

theorem countNet_nil : countNet [] = 0 := rfl

theorem countNet_sleepFor_net (r : Nat) (l : List Ev) :
    countNet (sleepFor r ++ (Ev.net :: l)) = countNet l + 1 := by
  unfold sleepFor countNet
  split <;> simp [List.filter_cons, isNet]

theorem retryLoopAux_events (oracle : Nat → NetOutcome) :
    ∀ remaining r, (retryLoopAux oracle r remaining).1 =
      (List.range' r (countNet (retryLoopAux oracle r remaining).1)).flatMap
        fun i => sleepFor i ++ [Ev.net] := by
  intro remaining
  induction remaining with
  | zero =>
    intro r
    rcases ho : oracle r with ⟨s, b⟩ | ⟨sc, rs⟩ <;>
      simp [retryLoopAux, ho, countNet_sleepFor_net, countNet_nil, List.range'_one]
  | succ rem ih =>
    intro r
    rcases ho : oracle r with ⟨s, b⟩ | ⟨sc, rs⟩
    · simp [retryLoopAux, ho, countNet_sleepFor_net, countNet_nil, List.range'_one]
    · by_cases hnr : nonRetryable sc = true
      · simp [retryLoopAux, ho, hnr, countNet_sleepFor_net, countNet_nil, List.range'_one]
      · have hnr' : nonRetryable sc = false := by
          simpa using hnr
        have hstep : retryLoopAux oracle r (rem + 1) =
            (sleepFor r ++ (Ev.net :: (retryLoopAux oracle (r + 1) rem).1),
             (retryLoopAux oracle (r + 1) rem).2) := by
          conv_lhs => rw [retryLoopAux.eq_def]
          dsimp only
          rw [ho]
          simp only [hnr', Bool.false_eq_true, if_false]
          simp
        rw [hstep]
        dsimp only
        rw [countNet_sleepFor_net, List.range'_succ, List.flatMap_cons, ← ih (r + 1)]
        simp

theorem retryLoop_events (oracle : Nat → NetOutcome) (m : Nat) :
    (retryLoop oracle m).1 = attemptEvents (countNet (retryLoop oracle m).1) := by
  unfold retryLoop attemptEvents
  rw [List.range_eq_range']
  exact retryLoopAux_events oracle m 0

theorem callLimitlessApi_events_cases (cfg : ServerConfig) (oracle : Nat → NetOutcome)
    (st : CacheState) (now : ℚ) (path : String) (qs : List (String × JSVal))
    (useCache : Bool) :
    (callLimitlessApi cfg oracle st now path qs useCache).events = [] ∨
    (callLimitlessApi cfg oracle st now path qs useCache).events =
      (retryLoop oracle cfg.apiMaxRetries).1 := by
  unfold callLimitlessApi
  dsimp only
  repeat' split
  all_goals simp

/-- C6: every dispatch obeys the backoff law of the source: its event trace
is the initial bare network attempt followed, for each further attempt, by
the sleep prescribed for that retry; the sleep before retry n (1-indexed)
lasts exactly 1000 * 2 ^ (n - 1) milliseconds and no sleep precedes the
initial attempt. -/
theorem callLimitlessApi_backoff (cfg : ServerConfig) (oracle : Nat → NetOutcome)
    (st : CacheState) (now : ℚ) (path : String) (qs : List (String × JSVal))
    (useCache : Bool) :
    (callLimitlessApi cfg oracle st now path qs useCache).events =
      attemptEvents
        (countNet (callLimitlessApi cfg oracle st now path qs useCache).events) ∧
    sleepFor 0 = [] ∧
    (∀ n : Nat, 1 ≤ n → sleepFor n = [Ev.sleep (1000 * 2 ^ (n - 1))]) := by
  refine ⟨?_, rfl, ?_⟩
  · rcases callLimitlessApi_events_cases cfg oracle st now path qs useCache with h | h <;>
      rw [h]
    · rfl
    · exact retryLoop_events oracle cfg.apiMaxRetries
  · intro n hn
    unfold sleepFor
    rw [if_pos (by omega), Nat.mul_comm]

/-- Closed instance of C6: with every attempt rejecting as a network error
and the default budget of 3 retries, the trace is attempt, sleep 1000,
attempt, sleep 2000, attempt, sleep 4000, attempt. -/
theorem callLimitlessApi_backoff_witness :
    sleepFor 1 = [Ev.sleep 1000] ∧
    (callLimitlessApi defaultConfig (fun _ => NetOutcome.exn none none) ⟨[], 500⟩ 0
        "/lifelogs" [] true).events =
      attemptEvents
        (countNet (callLimitlessApi defaultConfig (fun _ => NetOutcome.exn none none)
          ⟨[], 500⟩ 0 "/lifelogs" [] true).events) ∧
    (callLimitlessApi defaultConfig (fun _ => NetOutcome.exn none none) ⟨[], 500⟩ 0
        "/lifelogs" [] true).events =
      [Ev.net, Ev.sleep 1000, Ev.net, Ev.sleep 2000, Ev.net, Ev.sleep 4000, Ev.net] :=
  ⟨(callLimitlessApi_backoff defaultConfig (fun _ => NetOutcome.exn none none) ⟨[], 500⟩ 0
      "/lifelogs" [] true).2.2 1 (by decide),
   (callLimitlessApi_backoff defaultConfig (fun _ => NetOutcome.exn none none) ⟨[], 500⟩ 0
      "/lifelogs" [] true).1,
   by decide⟩

theorem cacheHit_aux (cfg : ServerConfig) (oracle : Nat → NetOutcome)
    (st : CacheState) (now : ℚ) (path : String) (qs : List (String × JSVal))
    (v : JSVal) (hv : cacheLookup st now (buildCacheKey path qs) = some v)
    (ht : truthy v = true) :
    callLimitlessApi cfg oracle st now path qs true = ⟨.ok v, [], st⟩ := by
  unfold callLimitlessApi
  simp [hv, ht]

theorem cacheSet_lookup_self (st : CacheState) (now ttl : ℚ) (k : String) (v : JSVal)
    (st' : CacheState) (hset : cacheSet st now ttl k v = some st') :
    cacheLookup st' now k = some v ∨ ttl < 0 := by
  by_cases httl : ttl < 0
  · exact Or.inr httl
  · left
    unfold cacheSet at hset
    split at hset
    · cases hset
    · cases hset
      unfold cacheLookup
      rw [lookup_cons_self]
      have : ¬ ((now + ttl) < now) := by
        push_neg at httl ⊢
        linarith
      simp [this]

theorem secondFetch_aux (cfg : ServerConfig) (oracle oracle' : Nat → NetOutcome)
    (st st' : CacheState) (now : ℚ) (path : String) (qs : List (String × JSVal))
    (v : JSVal) (evs : List Ev)
    (h1 : callLimitlessApi cfg oracle st now path qs true = ⟨.ok v, evs, st'⟩)
    (ht : truthy v = true) (httl : 0 ≤ calculateTTL cfg path qs) :
    callLimitlessApi cfg oracle' st' now path qs true = ⟨.ok v, [], st'⟩ := by
  unfold callLimitlessApi at h1
  dsimp only at h1
  simp only [eq_self_iff_true, if_true] at h1
  by_cases hc : truthy ((cacheLookup st now (buildCacheKey path qs)).getD JSVal.undefined) = true
  · rw [if_pos hc] at h1
    rw [FetchOut.mk.injEq] at h1
    obtain ⟨hres, hevs, hst⟩ := h1
    rw [FetchResult.ok.injEq] at hres
    have hv : cacheLookup st now (buildCacheKey path qs) = some v := by
      rcases hl : cacheLookup st now (buildCacheKey path qs) with _ | w
      · rw [hl] at hres
        rw [← hres] at ht
        cases ht
      · rw [hl] at hres
        rw [Option.getD_some] at hres
        rw [hres]
    rw [← hst]
    exact cacheHit_aux cfg oracle' st now path qs v hv ht
  · rw [if_neg hc] at h1
    rcases hrun : (retryLoop oracle cfg.apiMaxRetries).2 with ⟨s, b⟩ | ⟨sc, rs⟩ <;>
      rw [hrun] at h1 <;> dsimp only at h1
    · by_cases hs : (s == 0 || decide (s < 200) || decide (300 ≤ s)) = true
      · rw [if_pos hs] at h1
        rw [FetchOut.mk.injEq] at h1
        cases h1.1
      · rw [if_neg hs] at h1
        rcases hset : cacheSet st now (calculateTTL cfg path qs) (buildCacheKey path qs) b with
          _ | st'' <;> rw [hset] at h1
        · rw [FetchOut.mk.injEq] at h1
          cases h1.1
        · rw [FetchOut.mk.injEq] at h1
          obtain ⟨hres, hevs, hst⟩ := h1
          rw [FetchResult.ok.injEq] at hres
          subst hres
          subst hst
          rcases cacheSet_lookup_self st now (calculateTTL cfg path qs)
              (buildCacheKey path qs) b st'' hset with hl | hneg
          · exact cacheHit_aux cfg oracle' st'' now path qs b hl ht
          · exact absurd httl (by linarith)
    · rw [FetchOut.mk.injEq] at h1
      cases h1.1

/-- C7 (amended): a fetch with useCache whose derived key holds a truthy
non-expired cached value returns it with an empty event trace (zero network
attempts, zero retry steps) and an unchanged store; consequently, after any
first fetch that returned a truthy value (and a nonnegative TTL), an
immediate second fetch with the identical path and parameters returns the
identical value with zero network attempts, whatever the second oracle
would answer. -/
theorem cacheHit_bypasses_network :
    (∀ (cfg : ServerConfig) (oracle : Nat → NetOutcome) (st : CacheState) (now : ℚ)
        (path : String) (qs : List (String × JSVal)) (v : JSVal),
        cacheLookup st now (buildCacheKey path qs) = some v → truthy v = true →
        callLimitlessApi cfg oracle st now path qs true = ⟨.ok v, [], st⟩) ∧
    (∀ (cfg : ServerConfig) (oracle oracle' : Nat → NetOutcome) (st st' : CacheState)
        (now : ℚ) (path : String) (qs : List (String × JSVal)) (v : JSVal) (evs : List Ev),
        callLimitlessApi cfg oracle st now path qs true = ⟨.ok v, evs, st'⟩ →
        truthy v = true → 0 ≤ calculateTTL cfg path qs →
        callLimitlessApi cfg oracle' st' now path qs true = ⟨.ok v, [], st'⟩) :=
  ⟨fun cfg oracle st now path qs v hv ht =>
      cacheHit_aux cfg oracle st now path qs v hv ht,
   fun cfg oracle oracle' st st' now path qs v evs h1 ht httl =>
      secondFetch_aux cfg oracle oracle' st st' now path qs v evs h1 ht httl⟩

/-- Counterexample to C7 as stated: the derived key /a? is present and
non-expired in the store but holds the falsy value null, and the dispatcher
nevertheless performs one network attempt and returns the fresh body
instead of the cached value. -/
theorem cacheHit_bypasses_network_cex :
    cacheLookup ⟨[("/a?", ⟨JSVal.null, 0⟩)], 500⟩ 0 (buildCacheKey "/a" []) =
      some JSVal.null ∧
    (callLimitlessApi defaultConfig (fun _ => NetOutcome.ok 200 (JSVal.str "fresh"))
      ⟨[("/a?", ⟨JSVal.null, 0⟩)], 500⟩ 0 "/a" [] true).events = [Ev.net] ∧
    (callLimitlessApi defaultConfig (fun _ => NetOutcome.ok 200 (JSVal.str "fresh"))
      ⟨[("/a?", ⟨JSVal.null, 0⟩)], 500⟩ 0 "/a" [] true).result =
      FetchResult.ok (JSVal.str "fresh") := by
  refine ⟨?_, ?_, ?_⟩ <;> decide

theorem fetchOut_eta (f : FetchOut) (r : FetchResult) (e : List Ev)
    (hr : f.result = r) (he : f.events = e) : f = ⟨r, e, f.cache⟩ := by
  cases f
  cases hr
  cases he
  rfl

/-- Closed instance of C7: a truthy cached value is returned with no events
and no store change, and an immediate second fetch after a successful first
one returns the first body with no events even though the second oracle
would fail every attempt. -/
theorem cacheHit_bypasses_network_witness :
    callLimitlessApi defaultConfig (fun _ => NetOutcome.exn none none)
        ⟨[("/a?", ⟨JSVal.str "cached", 100⟩)], 500⟩ 0 "/a" [] true =
      ⟨.ok (JSVal.str "cached"), [], ⟨[("/a?", ⟨JSVal.str "cached", 100⟩)], 500⟩⟩ ∧
    callLimitlessApi defaultConfig (fun _ => NetOutcome.exn none none)
        (callLimitlessApi defaultConfig (fun _ => NetOutcome.ok 200 (JSVal.str "body"))
          ⟨[], 500⟩ 0 "/lifelogs" [] true).cache 0 "/lifelogs" [] true =
      ⟨.ok (JSVal.str "body"), [],
        (callLimitlessApi defaultConfig (fun _ => NetOutcome.ok 200 (JSVal.str "body"))
          ⟨[], 500⟩ 0 "/lifelogs" [] true).cache⟩ :=
  ⟨cacheHit_bypasses_network.1 defaultConfig (fun _ => NetOutcome.exn none none)
      ⟨[("/a?", ⟨JSVal.str "cached", 100⟩)], 500⟩ 0 "/a" [] (JSVal.str "cached")
      (by decide) (by decide),
   cacheHit_bypasses_network.2 defaultConfig (fun _ => NetOutcome.ok 200 (JSVal.str "body"))
      (fun _ => NetOutcome.exn none none) ⟨[], 500⟩
      (callLimitlessApi defaultConfig (fun _ => NetOutcome.ok 200 (JSVal.str "body"))
        ⟨[], 500⟩ 0 "/lifelogs" [] true).cache 0 "/lifelogs" [] (JSVal.str "body")
      [Ev.net] (fetchOut_eta _ _ _ (by decide) (by decide)) (by decide) (by decide)⟩

/-- C4 evaluation at the claimed scenario: when the upstream answers every
attempt with an HTTP 503 response, the transport resolves with the status
(the send capability returns a status and body, and undici request without
throwOnError never rejects with a statusCode), so with maxRetries 3 the
dispatcher performs exactly 1 network attempt, sleeps never, and raises the
unclassified generic HTTP error rather than the 5xx classification; only
when every attempt instead rejects with an error value carrying statusCode
503 does it perform 4 attempts and raise the McpError with the API_ERROR
code used for upstream 5xx. -/
theorem resolved503_one_attempt :
    defaultConfig.apiMaxRetries = 3 ∧
    (callLimitlessApi defaultConfig (fun _ => NetOutcome.ok 503 (JSVal.str "unavailable"))
      ⟨[], 500⟩ 0 "/lifelogs" [] true).events = [Ev.net] ∧
    (callLimitlessApi defaultConfig (fun _ => NetOutcome.ok 503 (JSVal.str "unavailable"))
      ⟨[], 500⟩ 0 "/lifelogs" [] true).result =
      FetchResult.error (Thrown.raw (Caught.httpError 503)) ∧
    (callLimitlessApi defaultConfig (fun _ => NetOutcome.exn (some 503) none)
      ⟨[], 500⟩ 0 "/lifelogs" [] true).events =
      [Ev.net, Ev.sleep 1000, Ev.net, Ev.sleep 2000, Ev.net, Ev.sleep 4000, Ev.net] ∧
    (callLimitlessApi defaultConfig (fun _ => NetOutcome.exn (some 503) none)
      ⟨[], 500⟩ 0 "/lifelogs" [] true).result =
      FetchResult.error (Thrown.mcp ErrCode.API_ERROR "Limitless API service error: 503") := by
  refine ⟨rfl, ?_, ?_, ?_, ?_⟩ <;> decide

/-- C5 evaluation at the claimed scenario: a first attempt answered with an
HTTP 404 response resolves, so the dispatcher performs exactly 1 network
attempt with no backoff sleep, but it raises the unclassified generic HTTP
error rather than the NOT_FOUND classification; the NOT_FOUND mapping fires
only when the attempt instead rejects with an error value carrying
statusCode 404, which again takes exactly 1 attempt and no sleep. -/
theorem resolved404_one_attempt :
    (callLimitlessApi defaultConfig (fun _ => NetOutcome.ok 404 (JSVal.str "missing"))
      ⟨[], 500⟩ 0 "/lifelogs" [] true).events = [Ev.net] ∧
    (callLimitlessApi defaultConfig (fun _ => NetOutcome.ok 404 (JSVal.str "missing"))
      ⟨[], 500⟩ 0 "/lifelogs" [] true).result =
      FetchResult.error (Thrown.raw (Caught.httpError 404)) ∧
    (callLimitlessApi defaultConfig (fun _ => NetOutcome.exn (some 404) none)
      ⟨[], 500⟩ 0 "/lifelogs" [] true).events = [Ev.net] ∧
    (callLimitlessApi defaultConfig (fun _ => NetOutcome.exn (some 404) none)
      ⟨[], 500⟩ 0 "/lifelogs" [] true).result =
      FetchResult.error (Thrown.mcp ErrCode.NOT_FOUND "Resource not found: /lifelogs") := by
  refine ⟨?_, ?_, ?_, ?_⟩ <;> decide

/-- C8 evaluation at the claimed scenario: the store is at its maximum of 1
distinct key, the derived key of the fetch is new, and the network call
succeeds with a 200 body; cache.set fails on capacity inside the try block,
the outer catch re-raises it unclassified, and callLimitlessApi raises that
error to its caller instead of returning the freshly fetched value. -/
theorem cacheFull_propagates :
    cacheSet ⟨[("other", ⟨JSVal.str "old", 0⟩)], 1⟩ 0 300
      (buildCacheKey "/lifelogs" []) (JSVal.str "fresh") = none ∧
    (callLimitlessApi defaultConfig (fun _ => NetOutcome.ok 200 (JSVal.str "fresh"))
      ⟨[("other", ⟨JSVal.str "old", 0⟩)], 1⟩ 0 "/lifelogs" [] true).result =
      FetchResult.error (Thrown.raw Caught.cacheFull) ∧
    (callLimitlessApi defaultConfig (fun _ => NetOutcome.ok 200 (JSVal.str "fresh"))
      ⟨[("other", ⟨JSVal.str "old", 0⟩)], 1⟩ 0 "/lifelogs" [] true).result ≠
      FetchResult.ok (JSVal.str "fresh") := by
  refine ⟨?_, ?_, ?_⟩ <;> decide
